import Mathlib

/-!
Verification development for the Nightscout ingestion client
(`src/lib/client.js`).  The code is embedded shallowly: epoch-millisecond
timestamps become `Int`, the moment-based elapsed-time arithmetic becomes
truncating division (the design notes fix a UTC / fixed-offset calendar
convention, under which `moment.diff` for days and hours is exactly
truncation toward zero of the millisecond difference divided by the unit),
and the stateful handlers become explicit state-passing functions.  The
event handlers that can throw are embedded in an `EStateM`-style monad whose
state is the list of `setState` emissions, so that partial emissions made
before an exception are preserved, exactly as in JavaScript.
-/
namespace Nightscout

/-! ## Elapsed-time arithmetic (moment.diff under a fixed-offset calendar)

`moment(a).diff(moment(b), unit)` returns `absFloor((a - b) / unit)` for the
`'hours'` and `'days'` units (with zero zone delta under the fixed-offset
convention of the design notes), where `absFloor` truncates toward zero. -/
/-- Truncation toward zero of `delta / unit`, JavaScript `absFloor` of the
real quotient for an integer `delta` and positive integer `unit`. -/
def jsTruncDiv (delta : Int) (unit : Nat) : Int :=
  if delta < 0 then -((delta.natAbs / unit : Nat) : Int)
  else ((delta.toNat / unit : Nat) : Int)

/-- `a.diff(b, 'hours')` for `a = moment(now)`, `b = moment(t)`. -/
def diffHours (now t : Int) : Int := jsTruncDiv (now - t) 3600000

/-- `a.diff(b, 'days')` for `a = moment(now)`, `b = moment(t)`. -/
def diffDays (now t : Int) : Int := jsTruncDiv (now - t) 86400000

/-! ## Treatment records and the age-selection algorithm
(`_getLatestTreatmentsInfo`, client.js lines 199-234) -/
/-- A treatment record: an optional free-text `eventType` label and a
`mills` epoch-millisecond timestamp (spec data model). -/
structure Treatment where
  eventType : Option String
  mills : Int
deriving Repr, DecidableEq

/-- The result record built by `_getLatestTreatmentsInfo`. -/
structure TreatmentInfo where
  found : Bool
  age : Int
  days : Int
  hours : Int
  millis : Int
deriving Repr, DecidableEq

/-- The initial `treatmentInfo` object of `_getLatestTreatmentsInfo`. -/
def initialTreatmentInfo : TreatmentInfo :=
  { found := false, age := 0, days := 0, hours := 0, millis := 0 }

/-- One iteration of the `treatments.forEach` loop body of
`_getLatestTreatmentsInfo`, acting on the pair
(`prevDate`, `treatmentInfo`) for a candidate timestamp `m`
(`treatment.mills`).  Mirrors client.js lines 211-230. -/
def treatmentStepM (now : Int) (s : Int × TreatmentInfo) (m : Int) :
    Int × TreatmentInfo :=
  if m > s.1 ∧ m ≤ now then
    if s.2.found = false ∨ (0 ≤ diffHours now m ∧ diffHours now m < s.2.age) then
      (m, { found := true, age := diffHours now m, days := diffDays now m,
            hours := diffHours now m - diffDays now m * 24, millis := m })
    else (m, s.2)
  else s

/-- The loop body applied to a treatment record. -/
def treatmentStep (now : Int) (s : Int × TreatmentInfo) (t : Treatment) :
    Int × TreatmentInfo :=
  treatmentStepM now s t.mills

/-- The final (`prevDate`, `treatmentInfo`) state of the forEach loop.
The `if (treatments.length)` guard in the source is redundant with folding
over the list: an empty list leaves the initial state unchanged. -/
def latestState (now : Int) (treatments : List Treatment) : Int × TreatmentInfo :=
  treatments.foldl (treatmentStep now) (0, initialTreatmentInfo)

/-- `_getLatestTreatmentsInfo` (client.js lines 199-234). -/
def getLatestTreatmentsInfo (now : Int) (treatments : List Treatment) :
    TreatmentInfo :=
  (latestState now treatments).2

/-- Does `needle` occur as a contiguous run inside `hay`? -/
def listIncludes (hay needle : List Char) : Bool :=
  match hay with
  | [] => needle.isEmpty
  | _ :: t => needle.isPrefixOf hay || listIncludes t needle

/-- JavaScript `hay.includes(needle)` on strings: substring containment. -/
def strIncludes (hay needle : String) : Bool :=
  listIncludes hay.toList needle.toList

/-- The `eventType && eventType.includes('Site Change')` filter of the
dataUpdate handler (client.js lines 132-133). -/
def isSiteChangeTreatment (t : Treatment) : Bool :=
  match t.eventType with
  | some e => strIncludes e "Site Change"
  | none => false

/-- The sensor filter: `eventType` contains `'Sensor Start'` or
`'Sensor Change'` (client.js lines 148-153). -/
def isSensorTreatment (t : Treatment) : Bool :=
  match t.eventType with
  | some e => strIncludes e "Sensor Start" || strIncludes e "Sensor Change"
  | none => false

/-- The cannula (site change) age info computed by the dataUpdate handler:
filter, then run the age-selection algorithm. -/
def cannulaInfo (now : Int) (treatments : List Treatment) : TreatmentInfo :=
  getLatestTreatmentsInfo now (treatments.filter isSiteChangeTreatment)

/-- The sensor age info computed by the dataUpdate handler. -/
def sensorAgeInfo (now : Int) (treatments : List Treatment) : TreatmentInfo :=
  getLatestTreatmentsInfo now (treatments.filter isSensorTreatment)

/-! ## The loop invariant of `_getLatestTreatmentsInfo`

After the forEach loop has processed the records in `l`, the running
maximum `prevDate` is the largest in-range (`0 < mills ≤ now`) timestamp
seen so far, and the info record holds the age data of that maximum. -/
/-- Invariant of the (`prevDate`, `treatmentInfo`) state after processing
the treatment records in `l`. -/
structure LoopInv (now : Int) (l : List Treatment) (s : Int × TreatmentInfo) : Prop where
  pd_nonneg : 0 ≤ s.1
  found_iff : s.2.found = true ↔ 0 < s.1
  pd_le_now : 0 < s.1 → s.1 ≤ now
  pd_mem : 0 < s.1 → ∃ t ∈ l, t.mills = s.1
  age_eq : s.2.found = true → s.2.age = diffHours now s.1
  days_eq : s.2.found = true → s.2.days = diffDays now s.1
  hours_eq : s.2.found = true → s.2.hours = s.2.age - s.2.days * 24
  millis_pos : s.2.found = true → 0 < s.2.millis
  millis_le_now : s.2.found = true → s.2.millis ≤ now
  millis_mem : s.2.found = true → ∃ t ∈ l, t.mills = s.2.millis
  millis_age : s.2.found = true → diffHours now s.2.millis = s.2.age
  millis_days : s.2.found = true → diffDays now s.2.millis = s.2.days
  not_found : s.2.found = false → s.2 = initialTreatmentInfo
  ub : ∀ t ∈ l, t.mills ≤ now → t.mills ≤ s.1

/-! ## The recovery path (`_recalcAges`, client.js lines 236-251)

`_recalcAges(baseId)` reads the state record stored at `baseId + '.changed'`
and, when a record exists, recomputes days/hours/age from its value against
the current time and re-emits the three age facts.  The state store is
modelled as a partial map from keys to stored values. -/
/-- A `{ts, ack, val}` state record with a numeric value. -/
structure Fact where
  ts : Int
  ack : Bool
  val : Int
deriving Repr, DecidableEq

/-- The body of `_recalcAges` given the stored `.changed` value (or `none`
when `getStateAsync` returned no record): the list of emitted
(key, record) facts, in emission order. -/
def recalcAgesFacts (now : Int) (stored : Option Int) (baseId : String) :
    List (String × Fact) :=
  match stored with
  | none => []
  | some treatmentDate =>
      [(baseId ++ ".age",
        { ts := now, ack := true, val := diffHours now treatmentDate }),
       (baseId ++ ".days",
        { ts := now, ack := true, val := diffDays now treatmentDate }),
       (baseId ++ ".hours",
        { ts := now, ack := true,
          val := diffHours now treatmentDate - diffDays now treatmentDate * 24 })]

/-- `_recalcAges` against a state store `store`: it reads exactly the key
`baseId ++ ".changed"` and emits the recomputed age facts. -/
def recalcAges (store : String → Option Int) (now : Int) (baseId : String) :
    List (String × Fact) :=
  recalcAgesFacts now (store (baseId ++ ".changed")) baseId

/-! ## The notification handler and its dedup cursor
(client.js lines 54-67) -/
/-- A notification payload.  The optional `timestamp` models both an absent
field (`none`) and a present numeric one; JavaScript truthiness of the
field is `some t` with `t ≠ 0`.  `title` and `message` are taken as
present strings. -/
structure NotifPayload where
  timestamp : Option Int
  title : String
  message : String
deriving Repr, DecidableEq

/-- The emitted `data.notification` record (string-valued). -/
structure NotifFact where
  ts : Int
  ack : Bool
  val : String
deriving Repr, DecidableEq

/-- The truthy timestamp of a payload: `data.timestamp` passes a JavaScript
`if (data.timestamp)` check exactly when present and nonzero. -/
def truthyTimestamp (p : NotifPayload) : Option Int :=
  match p.timestamp with
  | some t => if t = 0 then none else some t
  | none => none

/-- `new Date(t).getTime()` for a numeric argument: the timestamp itself
when within the ECMAScript time range, otherwise NaN (`none`). -/
def dateGetTime (t : Int) : Option Int :=
  if t.natAbs ≤ 8640000000000000 then some t else none

/-- The emitted fact timestamp for a truthy payload timestamp `t`:
`new Date(t).getTime()` (NaN when out of range), then `ts || Date.now()`
falls back to now on NaN or zero. -/
def notifTs (now t : Int) : Int :=
  match dateGetTime t with
  | some v => if v = 0 then now else v
  | none => now

/-- The notification handler for a non-null payload: given the current
time and the dedup cursor (`previousNotifyTimestamp`), returns the new
cursor and the optional emitted `data.notification` fact.
Mirrors client.js lines 56-65. -/
def notificationStep (now : Int) (prev : Option Int) (p : NotifPayload) :
    Option Int × Option NotifFact :=
  match truthyTimestamp p with
  | some t =>
      if prev = some t then (prev, none)
      else (some t,
        some { ts := notifTs now t, ack := true,
               val := p.title ++ " " ++ p.message })
  | none =>
      -- a falsy timestamp skips both the dedup check and the cursor update;
      -- new Date(undefined).getTime() is NaN, so the fact ts falls back to now
      (prev, some { ts := now, ack := true, val := p.title ++ " " ++ p.message })

/-! ## Connection lifecycle (client.js lines 35-50 and 192-197) -/
/-- The authorize request issued on transport connect. -/
structure AuthRequest where
  client : String
  secret : Option String
  history : Int
deriving Repr, DecidableEq

/-- The transport `connect` handler: resets the dedup cursor to absent,
emits `connection = true` to observers, and issues the authorize request
with client id `iobroker`, the precomputed secret hash and history 48. -/
def connectHandler (secretHash : Option String) (_prev : Option Int) :
    Option Int × Bool × AuthRequest :=
  (none, true, { client := "iobroker", secret := secretHash, history := 48 })

/-- Calling `.close()` on the transport handle: a JavaScript method call,
which would throw a TypeError on a null handle.  Returns the list of
close actions performed on live handles. -/
def callMethodClose {H : Type} : Option H → Except String (List H)
  | some h => .ok [h]
  | none => .error "TypeError: cannot call close of null"

/-- `close()` (client.js lines 192-197): if the handle is set, close it and
clear it; otherwise do nothing.  Returns the new handle and the close
actions performed. -/
def closeSession {H : Type} (sock : Option H) : Except String (Option H × List H) :=
  if sock.isSome then do
    let acts ← callMethodClose sock
    pure (none, acts)
  else pure (sock, [])

/-! ## Reference function for the refinement claim

Stated from the spec's words, independently of the loop: "take the latest
non-future timestamp" among candidates strictly after epoch 0, and compute
age data from that maximum alone. -/
/-- The non-future positive candidate timestamps of a treatment list. -/
def refCands (now : Int) (treatments : List Treatment) : List Int :=
  (treatments.map Treatment.mills).filter (fun m => decide (0 < m ∧ m ≤ now))

/-- Reference: the age info of the maximum timestamp `m` with
`0 < m ≤ now`, or the empty info when no such timestamp exists. -/
def refLatestAge (now : Int) (treatments : List Treatment) : TreatmentInfo :=
  if (refCands now treatments).isEmpty then initialTreatmentInfo
  else
    { found := true,
      age := diffHours now ((refCands now treatments).foldl max 0),
      days := diffDays now ((refCands now treatments).foldl max 0),
      hours := diffHours now ((refCands now treatments).foldl max 0) -
        diffDays now ((refCands now treatments).foldl max 0) * 24,
      millis := (refCands now treatments).foldl max 0 }

/-! ## A JavaScript value model for the throwing handlers

The `dataUpdate` body (client.js lines 90-186) and the `clear_alarm`
handler (lines 82-88) can throw on malformed payload shapes.  Values are
modelled by `JVal` (null and undefined are collapsed into `.null`: both are
falsy and both throw on property access), and the handlers run in an
`EStateM`-style monad whose state is the ordered list of `setState`
emissions, so that emissions made before a throw are retained. -/
/-- A JavaScript value.  `null` stands for both null and undefined. -/
inductive JVal where
  | null
  | bool (b : Bool)
  | num (n : Int)
  | str (s : String)
  | arr (elems : List JVal)
  | obj (fields : List (String × JVal))

/-- JavaScript truthiness. -/
def JVal.truthy : JVal → Bool
  | .null => false
  | .bool b => b
  | .num n => n != 0
  | .str s => !s.isEmpty
  | .arr _ => true
  | .obj _ => true

/-- An emitted `setState` value: either the bare-value form
`setState(key, value, true)` or the record form
`setState(key, {ts, ack: true, val})`.  Every `setState` in client.js is
acknowledged, so the ack flag is not repeated here. -/
inductive EmitVal where
  | raw (v : JVal)
  | record (ts : JVal) (val : JVal)

/-- One emission: state key and value. -/
abbrev Emission := String × EmitVal

/-- The handler monad: emissions as state, thrown errors as strings. -/
abbrev JSM := EStateM String (List Emission)

/-- The state carried by a handler result, whether it returned or threw. -/
def resState {α : Type} : EStateM.Result String (List Emission) α → List Emission
  | .ok _ s => s
  | .error _ s => s

/-- `adapter.setState(key, value)`: append one emission. -/
def setStateE (k : String) (v : EmitVal) : JSM Unit :=
  fun s => .ok () (s ++ [(k, v)])

/-- Property access `v[k]`: throws on null/undefined, looks fields up on
objects (missing fields are undefined), yields the length of arrays for
`"length"`, and yields undefined on other primitives. -/
def jget (v : JVal) (k : String) : JSM JVal :=
  match v with
  | .null => throw ("TypeError: cannot read " ++ k ++ " of null")
  | .obj fs => pure ((fs.lookup k).getD .null)
  | .arr xs => if k = "length" then pure (.num (xs.length : Int)) else pure .null
  | _ => pure .null

/-- Method call `v.pop()`: the last element of an array (undefined when
empty); a TypeError on non-arrays.  The mutation of the source array is
irrelevant here because each popped sequence is read only once. -/
def jsPop (v : JVal) : JSM JVal :=
  match v with
  | .arr xs => pure (xs.getLast?.getD .null)
  | _ => throw "TypeError: pop is not a function"

/-- `v.includes(needle)` for a string literal argument: substring test on
strings; on arrays, a strict-equality element search, which a fresh string
literal can match only against string elements (objects and arrays compare
by reference).  Other receivers have no `includes` method and throw. -/
def jsIncludes (v : JVal) (needle : String) : JSM Bool :=
  match v with
  | .str s => pure (strIncludes s needle)
  | .arr xs => pure (xs.any fun e => match e with
      | .str s => s = needle
      | _ => false)
  | _ => throw "TypeError: includes is not a function"

/-- `arr.filter(cb)` with a possibly-throwing callback; a TypeError on
non-array receivers. -/
def jsFilterAux (cb : JVal → JSM Bool) : List JVal → JSM (List JVal)
  | [] => pure []
  | x :: xs => do
      let b ← cb x
      let rest ← jsFilterAux cb xs
      pure (if b then x :: rest else rest)

def jsFilter (v : JVal) (cb : JVal → JSM Bool) : JSM (List JVal) :=
  match v with
  | .arr xs => jsFilterAux cb xs
  | _ => throw "TypeError: filter is not a function"

/-- `new Date(v).getTime()`: the value itself for in-range numbers, NaN
(rendered as null) otherwise.  Date-string parsing and the null-to-epoch-0
coercion are not modelled; no claim depends on those values. -/
def jsNewDateGetTime (v : JVal) : JVal :=
  match v with
  | .num n => if n.natAbs ≤ 8640000000000000 then .num n else .null
  | _ => .null

/-- The `treatments.forEach` loop of `_getLatestTreatmentsInfo` over raw
values: each record's `mills` property is read (a throwing access), and
only numeric timestamps can pass the `> prevDate && <= now` comparisons
(comparisons against undefined or NaN are false in JavaScript; numeric
string coercion is out of scope and no claim exercises it). -/
def jvalTreatmentsAux (now : Int) :
    List JVal → Int × TreatmentInfo → JSM (Int × TreatmentInfo)
  | [], s => pure s
  | t :: rest, s => do
      let mv ← jget t "mills"
      match mv with
      | .num m => jvalTreatmentsAux now rest (treatmentStepM now s m)
      | _ => jvalTreatmentsAux now rest s

/-- `_getLatestTreatmentsInfo` over raw values. -/
def jvalTreatmentsInfo (now : Int) (l : List JVal) : JSM TreatmentInfo := do
  let s ← jvalTreatmentsAux now l (0, initialTreatmentInfo)
  pure s.2

/-! ## The dataUpdate handler body (client.js lines 92-181) -/
/-- Device-status decoding (client.js lines 101-120), given the shared
fact timestamp `tsv` (`lastUpdated || now`).  Written with explicit binds
so the sequencing mirrors the source line by line. -/
def deviceSection (tsv : JVal) (p : JVal) : JSM Unit :=
  jget p "devicestatus" >>= fun ds =>
  if ds.truthy then
    jget ds "length" >>= fun len =>
    if len.truthy then
      jsPop ds >>= fun status =>
      jget status "device" >>= fun device =>
      setStateE "data.device" (.raw device) >>= fun _ =>
      jget status "pump" >>= fun pump =>
      (if pump.truthy then
        jget pump "clock" >>= fun clock =>
        setStateE "data.clock" (.record tsv (jsNewDateGetTime clock)) >>= fun _ =>
        jget pump "reservoir" >>= fun reservoir =>
        setStateE "data.reservoir" (.record tsv reservoir) >>= fun _ =>
        jget pump "iob" >>= fun iob =>
        (if iob.truthy then
          jget iob "bolusiob" >>= fun b =>
          setStateE "data.bolusiob" (.record tsv b)
        else pure ()) >>= fun _ =>
        jget pump "battery" >>= fun battery =>
        (if battery.truthy then
          jget battery "percent" >>= fun pc =>
          setStateE "data.pumpBattery" (.record tsv pc)
        else pure ()) >>= fun _ =>
        jget pump "status" >>= fun pstatus =>
        if pstatus.truthy then
          jget pstatus "bolusing" >>= fun b1 =>
          setStateE "data.bolusing" (.record tsv b1) >>= fun _ =>
          jget pstatus "status" >>= fun s1 =>
          setStateE "data.status" (.record tsv s1) >>= fun _ =>
          jget pstatus "suspended" >>= fun s2 =>
          setStateE "data.suspended" (.record tsv s2)
        else pure ()
      else pure ()) >>= fun _ =>
      jget status "uploader" >>= fun uploader =>
      if uploader.truthy then
        jget uploader "battery" >>= fun ub =>
        -- the asymmetric bare-value emission, preserved as in the source
        setStateE "data.uploaderBattery" (.raw ub)
      else pure ()
    else pure ()
  else pure ()

/-- Glucose-reading decoding (client.js lines 122-127). -/
def sgvsSection (p : JVal) : JSM Unit := do
  let sgvs ← jget p "sgvs"
  if sgvs.truthy then do
    let len ← jget sgvs "length"
    if len.truthy then do
      let sgv ← jsPop sgvs
      let mills ← jget sgv "mills"
      let mgdl ← jget sgv "mgdl"
      setStateE "data.mgdl" (.record mills mgdl)
      let scaled ← jget sgv "scaled"
      setStateE "data.mgdlScaled" (.record mills scaled)
      let dir ← jget sgv "direction"
      setStateE "data.mgdlDirection" (.record mills dir)

/-- The site-change filter callback of lines 132-133 (also reused by the
food section, lines 169-170). -/
def siteChangeCb (t : JVal) : JSM Bool := do
  let et ← jget t "eventType"
  if et.truthy then jsIncludes et "Site Change" else pure false

/-- The sensor filter callback of lines 148-153. -/
def sensorCb (t : JVal) : JSM Bool := do
  let et ← jget t "eventType"
  if et.truthy then do
    let a ← jsIncludes et "Sensor Start"
    if a then pure true else jsIncludes et "Sensor Change"
  else pure false

/-- Treatment decoding (client.js lines 129-166): filter and run the age
selection for the cannula and the sensor categories; emit the fresh facts
when found.  Returns the (siteChangeUpdated, sensorUpdated) flags. -/
def treatmentsSection (now : Int) (p : JVal) : JSM (Bool × Bool) :=
  jget p "treatments" >>= fun tr =>
  if tr.truthy then
    jget tr "length" >>= fun len =>
    if len.truthy then
      jsFilter tr siteChangeCb >>= fun site =>
      jvalTreatmentsInfo now site >>= fun cInfo =>
      (if cInfo.found then
        setStateE "data.cage.age" (.record (.num now) (.num cInfo.age)) >>= fun _ =>
        setStateE "data.cage.days" (.record (.num now) (.num cInfo.days)) >>= fun _ =>
        setStateE "data.cage.hours" (.record (.num now) (.num cInfo.hours)) >>= fun _ =>
        setStateE "data.cage.changed"
          (.record (.num cInfo.millis) (jsNewDateGetTime (.num cInfo.millis))) >>= fun _ =>
        pure true
      else pure false) >>= fun r1 =>
      jsFilter tr sensorCb >>= fun sens =>
      jvalTreatmentsInfo now sens >>= fun sInfo =>
      (if sInfo.found then
        setStateE "data.sage.age" (.record (.num now) (.num sInfo.age)) >>= fun _ =>
        setStateE "data.sage.days" (.record (.num now) (.num sInfo.days)) >>= fun _ =>
        setStateE "data.sage.hours" (.record (.num now) (.num sInfo.hours)) >>= fun _ =>
        setStateE "data.sage.changed"
          (.record (.num sInfo.millis) (jsNewDateGetTime (.num sInfo.millis))) >>= fun _ =>
        pure true
      else pure false) >>= fun r2 =>
      pure (r1, r2)
    else pure (false, false)
  else pure (false, false)

/-- Food decoding (client.js lines 168-172): the filter runs (and can
throw) but its result is discarded. -/
def foodSection (p : JVal) : JSM Unit := do
  let food ← jget p "food"
  if food.truthy then do
    let len ← jget food "length"
    if len.truthy then do
      let _ ← jsFilter food siteChangeCb
      pure ()

/-- The emissions of a `_recalcAges` run, appended to the state.  The
asynchronous state-store read is modelled by the `store` oracle; its
completion is sequenced here at the call site (the spec documents that
this ordering is not otherwise guaranteed, and no claim depends on it). -/
def emitRecalcM (store : String → Option Int) (now : Int) (baseId : String) :
    JSM Unit :=
  fun s => .ok ()
    (s ++ (recalcAges store now baseId).map
      fun e => (e.1, EmitVal.record (.num e.2.ts) (.num e.2.val)))

/-- The try-block body of the dataUpdate handler (client.js lines 93-181).
The two `Date.now()` reads within one pass are modelled as one instant, and
the shared fact timestamp `ts = lastUpdated || now` is inlined at its one
use site (the device section). -/
def dataUpdateBody (store : String → Option Int) (now : Int) (p : JVal) :
    JSM Unit :=
  setStateE "data.rawUpdate" (.raw p) >>= fun _ =>
  if p.truthy then
    jget p "lastUpdated" >>= fun lastUpdated =>
    (if lastUpdated.truthy then setStateE "data.lastUpdate" (.raw lastUpdated)
     else pure ()) >>= fun _ =>
    deviceSection (if lastUpdated.truthy then lastUpdated else JVal.num now) p >>= fun _ =>
    sgvsSection p >>= fun _ =>
    treatmentsSection now p >>= fun flags =>
    foodSection p >>= fun _ =>
    (if flags.1 then pure () else emitRecalcM store now "data.cage") >>= fun _ =>
    (if flags.2 then pure () else emitRecalcM store now "data.sage")
  else pure ()

/-- The per-event catch of the dataUpdate handler: an error from the body
is logged and swallowed; the emissions made before the throw are kept. -/
def jsCatch (m : JSM Unit) : JSM Unit :=
  fun s =>
    match m.run s with
    | .ok a s' => .ok a s'
    | .error _ s' => .ok () s'

/-- The dataUpdate handler (client.js lines 90-186): the body wrapped in
try/catch. -/
def dataUpdateHandler (store : String → Option Int) (now : Int) (p : JVal) :
    JSM Unit :=
  jsCatch (dataUpdateBody store now p)

/-- The clear_alarm handler (client.js lines 82-88).  Note: unlike
dataUpdate, it has no try/catch. -/
def clearAlarmHandler (p : JVal) : JSM Unit := do
  let c ← jget p "clear"
  if c.truthy then do
    setStateE "data.alarm" (.raw (.bool false))
    setStateE "data.urgentAlarm" (.raw (.bool false))

/-! ## Emission accounting

`EmitsWithin m K` says that running `m` from any state only appends
emissions, all of whose keys lie in `K` — whether `m` returns or throws. -/
def EmitsWithin {α : Type} (m : JSM α) (K : List String) : Prop :=
  ∀ s, ∃ l, resState (m.run s) = s ++ l ∧ ∀ e ∈ l, e.1 ∈ K

/-- The nine device-status fact keys of the claim. -/
def deviceKeys : List String :=
  ["data.device", "data.clock", "data.reservoir", "data.bolusiob",
   "data.pumpBattery", "data.bolusing", "data.status", "data.suspended",
   "data.uploaderBattery"]

/-- The treatment-age fact keys (fresh and recovery paths). -/
def cageSageKeys : List String :=
  ["data.cage.age", "data.cage.days", "data.cage.hours", "data.cage.changed",
   "data.sage.age", "data.sage.days", "data.sage.hours", "data.sage.changed"]

/-- Every key the dataUpdate body can emit outside the device section. -/
def nonDeviceKeys : List String :=
  ["data.rawUpdate", "data.lastUpdate", "data.mgdl", "data.mgdlScaled",
   "data.mgdlDirection"] ++ cageSageKeys

/-! ## Theorems -/

theorem jsTruncDiv_of_nonneg {d : Int} (u : Nat) (h : 0 ≤ d) :
    jsTruncDiv d u = ((d.toNat / u : Nat) : Int) := by
  unfold jsTruncDiv
  rw [if_neg (not_lt.mpr h)]

theorem diffHours_eq_of_le {now t : Int} (h : t ≤ now) :
    diffHours now t = (((now - t).toNat / 3600000 : Nat) : Int) :=
  jsTruncDiv_of_nonneg _ (by omega)

theorem diffDays_eq_of_le {now t : Int} (h : t ≤ now) :
    diffDays now t = (((now - t).toNat / 3600000 / 24 : Nat) : Int) := by
  unfold diffDays
  rw [jsTruncDiv_of_nonneg _ (by omega : (0:Int) ≤ now - t), Nat.div_div_eq_div_mul]

theorem diffHours_nonneg {now t : Int} (h : t ≤ now) : 0 ≤ diffHours now t := by
  rw [diffHours_eq_of_le h]
  exact Int.natCast_nonneg _

/-- A strictly later (but still non-future) reference timestamp has an
elapsed whole-hour count that is no larger. -/
theorem diffHours_anti {now t₁ t₂ : Int} (h₁ : t₁ ≤ t₂) (h₂ : t₂ ≤ now) :
    diffHours now t₂ ≤ diffHours now t₁ := by
  rw [diffHours_eq_of_le h₂, diffHours_eq_of_le (le_trans h₁ h₂)]
  exact_mod_cast Nat.div_le_div_right (Int.toNat_le_toNat (by omega))

/-- Whole elapsed days are determined by whole elapsed hours (both computed
from a non-future reference), so equal hour counts force equal day counts. -/
theorem diffDays_eq_of_diffHours_eq {now t₁ t₂ : Int} (h₁ : t₁ ≤ now) (h₂ : t₂ ≤ now)
    (h : diffHours now t₁ = diffHours now t₂) : diffDays now t₁ = diffDays now t₂ := by
  rw [diffHours_eq_of_le h₁, diffHours_eq_of_le h₂] at h
  rw [diffDays_eq_of_le h₁, diffDays_eq_of_le h₂]
  exact_mod_cast congrArg (· / 24) (Int.natCast_inj.mp h)

theorem loopInv_nil (now : Int) : LoopInv now [] (0, initialTreatmentInfo) := by
  constructor <;> simp [initialTreatmentInfo]

/-- One loop iteration preserves the invariant. -/
theorem loopInv_step (now : Int) (t : Treatment) (l : List Treatment)
    (s : Int × TreatmentInfo) (h : LoopInv now l s) :
    LoopInv now (l ++ [t]) (treatmentStep now s t) := by
  unfold treatmentStep treatmentStepM
  by_cases hc : t.mills > s.1 ∧ t.mills ≤ now
  · rw [if_pos hc]
    obtain ⟨hgt, hle⟩ := hc
    have hpos : 0 < t.mills := lt_of_le_of_lt h.pd_nonneg hgt
    by_cases hr : s.2.found = false ∨
        (0 ≤ diffHours now t.mills ∧ diffHours now t.mills < s.2.age)
    · rw [if_pos hr]
      refine ⟨by omega, by simp [hpos], fun _ => hle, fun _ => ⟨t, by simp⟩,
        fun _ => rfl, fun _ => rfl, fun _ => by ring,
        fun _ => hpos, fun _ => hle, fun _ => ⟨t, by simp⟩,
        fun _ => rfl, fun _ => rfl, by simp, ?_⟩
      intro t' ht' hnow
      rcases List.mem_append.mp ht' with h1 | h1
      · exact le_of_lt (lt_of_le_of_lt (h.ub t' h1 hnow) hgt)
      · simp at h1
        simp [h1]
    · rw [if_neg hr]
      push_neg at hr
      obtain ⟨hfound, hage⟩ := hr
      have hfound' : s.2.found = true := by
        cases hf : s.2.found
        · exact absurd hf hfound
        · rfl
      -- the new candidate is later, hence its age is no larger; the skip
      -- condition forces the ages to be equal
      have hanti : diffHours now t.mills ≤ diffHours now s.1 :=
        diffHours_anti (le_of_lt hgt) hle
      have holdle : s.1 ≤ now := h.pd_le_now (h.found_iff.mp hfound')
      have hagele := hage (diffHours_nonneg hle)
      have hae : s.2.age = diffHours now s.1 := h.age_eq hfound'
      have hde : s.2.days = diffDays now s.1 := h.days_eq hfound'
      have hageq : diffHours now t.mills = s.2.age := by omega
      have hdayeq : diffDays now t.mills = s.2.days := by
        have h2 : diffDays now t.mills = diffDays now s.1 :=
          diffDays_eq_of_diffHours_eq hle holdle (by omega)
        omega
      refine ⟨by omega, by simp [hfound', hpos], fun _ => hle, fun _ => ⟨t, by simp⟩,
        fun _ => show s.2.age = diffHours now t.mills from hageq.symm,
        fun _ => show s.2.days = diffDays now t.mills from hdayeq.symm,
        h.hours_eq, h.millis_pos, h.millis_le_now,
        fun hf => by
          obtain ⟨t', ht', hm⟩ := h.millis_mem hf
          exact ⟨t', List.mem_append.mpr (Or.inl ht'), hm⟩,
        h.millis_age, h.millis_days, by simp [hfound'], ?_⟩
      intro t' ht' hnow
      rcases List.mem_append.mp ht' with h1 | h1
      · exact le_of_lt (lt_of_le_of_lt (h.ub t' h1 hnow) hgt)
      · simp at h1
        simp [h1]
  · rw [if_neg hc]
    push_neg at hc
    refine ⟨h.pd_nonneg, h.found_iff, h.pd_le_now,
      fun hp => by
        obtain ⟨t', ht', hm⟩ := h.pd_mem hp
        exact ⟨t', List.mem_append.mpr (Or.inl ht'), hm⟩,
      h.age_eq, h.days_eq, h.hours_eq, h.millis_pos, h.millis_le_now,
      fun hf => by
        obtain ⟨t', ht', hm⟩ := h.millis_mem hf
        exact ⟨t', List.mem_append.mpr (Or.inl ht'), hm⟩,
      h.millis_age, h.millis_days, h.not_found, ?_⟩
    intro t' ht' hnow
    rcases List.mem_append.mp ht' with h1 | h1
    · exact h.ub t' h1 hnow
    · simp at h1
      rw [h1] at hnow
      rw [h1]
      by_cases h2 : t.mills > s.1
      · exact absurd hnow (not_le.mpr (hc h2))
      · omega

theorem loopInv_foldl (now : Int) :
    ∀ (rest l : List Treatment) (s : Int × TreatmentInfo),
      LoopInv now l s → LoopInv now (l ++ rest) (rest.foldl (treatmentStep now) s)
  | [], l, s, h => by simpa using h
  | t :: rest, l, s, h => by
      have h2 := loopInv_foldl now rest (l ++ [t]) _ (loopInv_step now t l s h)
      simpa [List.append_assoc] using h2

/-- The invariant holds of the final state of `_getLatestTreatmentsInfo`. -/
theorem latestState_inv (now : Int) (l : List Treatment) :
    LoopInv now l (latestState now l) := by
  simpa using loopInv_foldl now l [] _ (loopInv_nil now)

theorem notifTs_eq (now t : Int) (ht : t ≠ 0) :
    notifTs now t = if t.natAbs ≤ 8640000000000000 then t else now := by
  unfold notifTs dateGetTime
  by_cases hr : t.natAbs ≤ 8640000000000000 <;> simp [hr, ht]

theorem notificationStep_truthy (now : Int) (prev : Option Int)
    (p : NotifPayload) (t : Int) (h : truthyTimestamp p = some t) :
    notificationStep now prev p =
      if prev = some t then (prev, none)
      else (some t,
        some { ts := notifTs now t, ack := true,
               val := p.title ++ " " ++ p.message }) := by
  unfold notificationStep
  rw [h]

theorem notificationStep_falsy (now : Int) (prev : Option Int)
    (p : NotifPayload) (h : truthyTimestamp p = none) :
    notificationStep now prev p =
      (prev, some { ts := now, ack := true,
                    val := p.title ++ " " ++ p.message }) := by
  unfold notificationStep
  rw [h]

theorem foldl_max_init_le : ∀ (l : List Int) (a : Int), a ≤ l.foldl max a
  | [], _ => le_refl _
  | x :: xs, a => le_trans (le_max_left a x) (foldl_max_init_le xs (max a x))

theorem foldl_max_mem_le : ∀ (l : List Int) (a x : Int), x ∈ l → x ≤ l.foldl max a
  | [], _, _, hx => absurd hx (List.not_mem_nil _)
  | y :: ys, a, x, hx => by
      rcases List.mem_cons.mp hx with h | h
      · subst h
        exact le_trans (le_max_right a x) (foldl_max_init_le ys (max a x))
      · exact foldl_max_mem_le ys (max a y) x h

theorem foldl_max_eq_or_mem : ∀ (l : List Int) (a : Int),
    l.foldl max a = a ∨ l.foldl max a ∈ l
  | [], _ => Or.inl rfl
  | y :: ys, a => by
      rcases foldl_max_eq_or_mem ys (max a y) with h | h
      · rw [List.foldl_cons, h]
        rcases max_choice a y with h2 | h2
        · exact Or.inl h2
        · exact Or.inr (by rw [h2]; exact List.mem_cons_self _ _)
      · exact Or.inr (List.mem_cons_of_mem _ h)

theorem run_pure {α : Type} (a : α) (s : List Emission) :
    (pure a : JSM α).run s = .ok a s := rfl

theorem run_bind_ok {α β : Type} (x : JSM α) (f : α → JSM β)
    {s s' : List Emission} {a : α} (hx : x.run s = .ok a s') :
    (x >>= f).run s = (f a).run s' := by
  show EStateM.bind x f s = _
  unfold EStateM.bind
  rw [show x s = EStateM.Result.ok a s' from hx]
  rfl

theorem run_bind_error {α β : Type} (x : JSM α) (f : α → JSM β)
    {s s' : List Emission} {e : String} (hx : x.run s = .error e s') :
    (x >>= f).run s = .error e s' := by
  show EStateM.bind x f s = _
  unfold EStateM.bind
  rw [show x s = EStateM.Result.error e s' from hx]

theorem run_throw {α : Type} (e : String) (s : List Emission) :
    (throw e : JSM α).run s = .error e s := rfl

theorem ew_pure {α : Type} (a : α) (K : List String) :
    EmitsWithin (pure a) K :=
  fun s => ⟨[], by simp [run_pure, resState], by simp⟩

theorem ew_throw {α : Type} (e : String) (K : List String) :
    EmitsWithin (throw e : JSM α) K :=
  fun s => ⟨[], by simp [run_throw, resState], by simp⟩

theorem ew_bind {α β : Type} {m : JSM α} {f : α → JSM β} {K : List String}
    (hm : EmitsWithin m K) (hf : ∀ a, EmitsWithin (f a) K) :
    EmitsWithin (m >>= f) K := by
  intro s
  obtain ⟨l1, h1, hk1⟩ := hm s
  cases hx : m.run s with
  | ok a s' =>
      rw [hx] at h1
      simp only [resState] at h1
      subst h1
      obtain ⟨l2, h2, hk2⟩ := hf a (s ++ l1)
      refine ⟨l1 ++ l2, ?_, ?_⟩
      · rw [run_bind_ok m f hx, h2, List.append_assoc]
      · intro e he
        rcases List.mem_append.mp he with h | h
        · exact hk1 e h
        · exact hk2 e h
  | error err s' =>
      rw [hx] at h1
      simp only [resState] at h1
      refine ⟨l1, ?_, hk1⟩
      rw [run_bind_error m f hx]
      simpa [resState] using h1

theorem ew_set {k : String} {K : List String} (v : EmitVal) (hk : k ∈ K) :
    EmitsWithin (setStateE k v) K :=
  fun s => ⟨[(k, v)], rfl, by simpa using hk⟩

theorem ew_ite {α : Type} {c : Prop} [Decidable c] {m m' : JSM α} {K : List String}
    (h1 : EmitsWithin m K) (h2 : EmitsWithin m' K) :
    EmitsWithin (if c then m else m') K := by
  by_cases hc : c
  · simpa [hc] using h1
  · simpa [hc] using h2

theorem ew_mono {α : Type} {m : JSM α} {K K' : List String}
    (hs : ∀ x ∈ K, x ∈ K') (h : EmitsWithin m K) : EmitsWithin m K' := by
  intro s
  obtain ⟨l, h1, hk⟩ := h s
  exact ⟨l, h1, fun e he => hs e.1 (hk e he)⟩

theorem ew_jget (v : JVal) (k : String) (K : List String) :
    EmitsWithin (jget v k) K := by
  cases v
  case null => exact ew_throw _ _
  case obj fs => exact ew_pure _ _
  case arr xs =>
      unfold jget
      exact ew_ite (ew_pure _ _) (ew_pure _ _)
  all_goals exact ew_pure _ _

theorem ew_jsPop (v : JVal) (K : List String) : EmitsWithin (jsPop v) K := by
  cases v
  case arr xs => exact ew_pure _ _
  all_goals exact ew_throw _ _

theorem ew_jsIncludes (v : JVal) (needle : String) (K : List String) :
    EmitsWithin (jsIncludes v needle) K := by
  cases v
  case str s => exact ew_pure _ _
  case arr xs => exact ew_pure _ _
  all_goals exact ew_throw _ _

theorem ew_filterAux {cb : JVal → JSM Bool} {K : List String}
    (hcb : ∀ x, EmitsWithin (cb x) K) :
    ∀ xs, EmitsWithin (jsFilterAux cb xs) K
  | [] => ew_pure _ _
  | x :: xs => by
      unfold jsFilterAux
      exact ew_bind (hcb x) fun b =>
        ew_bind (ew_filterAux hcb xs) fun rest => ew_pure _ _

theorem ew_jsFilter (v : JVal) {cb : JVal → JSM Bool} {K : List String}
    (hcb : ∀ x, EmitsWithin (cb x) K) : EmitsWithin (jsFilter v cb) K := by
  cases v
  case arr xs => exact ew_filterAux hcb xs
  all_goals exact ew_throw _ _

theorem ew_jvalTreatmentsAux (now : Int) (K : List String) :
    ∀ (l : List JVal) (s : Int × TreatmentInfo),
      EmitsWithin (jvalTreatmentsAux now l s) K
  | [], s => ew_pure _ _
  | t :: rest, s => by
      unfold jvalTreatmentsAux
      refine ew_bind (ew_jget _ _ _) fun mv => ?_
      cases mv
      case num m => exact ew_jvalTreatmentsAux now K rest _
      all_goals exact ew_jvalTreatmentsAux now K rest s

theorem ew_jvalTreatmentsInfo (now : Int) (l : List JVal) (K : List String) :
    EmitsWithin (jvalTreatmentsInfo now l) K :=
  ew_bind (ew_jvalTreatmentsAux now K l _) fun _ => ew_pure _ _

theorem ew_deviceSection (tsv p : JVal) :
    EmitsWithin (deviceSection tsv p) deviceKeys := by
  unfold deviceSection
  refine ew_bind (ew_jget _ _ _) fun ds => ?_
  refine ew_ite ?_ (ew_pure _ _)
  refine ew_bind (ew_jget _ _ _) fun len => ?_
  refine ew_ite ?_ (ew_pure _ _)
  refine ew_bind (ew_jsPop _ _) fun status => ?_
  refine ew_bind (ew_jget _ _ _) fun device => ?_
  refine ew_bind (ew_set _ (by decide)) fun _ => ?_
  refine ew_bind (ew_jget _ _ _) fun pump => ?_
  refine ew_bind ?_ fun _ => ?_
  · refine ew_ite ?_ (ew_pure _ _)
    refine ew_bind (ew_jget _ _ _) fun clock => ?_
    refine ew_bind (ew_set _ (by decide)) fun _ => ?_
    refine ew_bind (ew_jget _ _ _) fun reservoir => ?_
    refine ew_bind (ew_set _ (by decide)) fun _ => ?_
    refine ew_bind (ew_jget _ _ _) fun iob => ?_
    refine ew_bind ?_ fun _ => ?_
    · refine ew_ite ?_ (ew_pure _ _)
      exact ew_bind (ew_jget _ _ _) fun b => ew_set _ (by decide)
    refine ew_bind (ew_jget _ _ _) fun battery => ?_
    refine ew_bind ?_ fun _ => ?_
    · refine ew_ite ?_ (ew_pure _ _)
      exact ew_bind (ew_jget _ _ _) fun pc => ew_set _ (by decide)
    refine ew_bind (ew_jget _ _ _) fun pstatus => ?_
    refine ew_ite ?_ (ew_pure _ _)
    refine ew_bind (ew_jget _ _ _) fun b1 => ?_
    refine ew_bind (ew_set _ (by decide)) fun _ => ?_
    refine ew_bind (ew_jget _ _ _) fun s1 => ?_
    refine ew_bind (ew_set _ (by decide)) fun _ => ?_
    exact ew_bind (ew_jget _ _ _) fun s2 => ew_set _ (by decide)
  refine ew_bind (ew_jget _ _ _) fun uploader => ?_
  refine ew_ite ?_ (ew_pure _ _)
  exact ew_bind (ew_jget _ _ _) fun ub => ew_set _ (by decide)

theorem ew_sgvsSection (p : JVal) :
    EmitsWithin (sgvsSection p) nonDeviceKeys := by
  unfold sgvsSection
  refine ew_bind (ew_jget _ _ _) fun sgvs => ?_
  refine ew_ite ?_ (ew_pure _ _)
  refine ew_bind (ew_jget _ _ _) fun len => ?_
  refine ew_ite ?_ (ew_pure _ _)
  refine ew_bind (ew_jsPop _ _) fun sgv => ?_
  refine ew_bind (ew_jget _ _ _) fun mills => ?_
  refine ew_bind (ew_jget _ _ _) fun mgdl => ?_
  refine ew_bind (ew_set _ (by decide)) fun _ => ?_
  refine ew_bind (ew_jget _ _ _) fun scaled => ?_
  refine ew_bind (ew_set _ (by decide)) fun _ => ?_
  exact ew_bind (ew_jget _ _ _) fun dir => ew_set _ (by decide)

theorem ew_siteChangeCb (t : JVal) (K : List String) :
    EmitsWithin (siteChangeCb t) K := by
  unfold siteChangeCb
  refine ew_bind (ew_jget _ _ _) fun et => ?_
  exact ew_ite (ew_jsIncludes _ _ _) (ew_pure _ _)

theorem ew_sensorCb (t : JVal) (K : List String) :
    EmitsWithin (sensorCb t) K := by
  unfold sensorCb
  refine ew_bind (ew_jget _ _ _) fun et => ?_
  refine ew_ite ?_ (ew_pure _ _)
  refine ew_bind (ew_jsIncludes _ _ _) fun a => ?_
  exact ew_ite (ew_pure _ _) (ew_jsIncludes _ _ _)

theorem ew_treatmentsSection (now : Int) (p : JVal) :
    EmitsWithin (treatmentsSection now p) nonDeviceKeys := by
  unfold treatmentsSection
  refine ew_bind (ew_jget _ _ _) fun tr => ?_
  refine ew_ite ?_ (ew_pure _ _)
  refine ew_bind (ew_jget _ _ _) fun len => ?_
  refine ew_ite ?_ (ew_pure _ _)
  refine ew_bind (ew_jsFilter _ fun x => ew_siteChangeCb x _) fun site => ?_
  refine ew_bind (ew_jvalTreatmentsInfo _ _ _) fun cInfo => ?_
  refine ew_bind ?_ fun r1 => ?_
  · refine ew_ite ?_ (ew_pure _ _)
    refine ew_bind (ew_set _ (by decide)) fun _ => ?_
    refine ew_bind (ew_set _ (by decide)) fun _ => ?_
    refine ew_bind (ew_set _ (by decide)) fun _ => ?_
    exact ew_bind (ew_set _ (by decide)) fun _ => ew_pure _ _
  refine ew_bind (ew_jsFilter _ fun x => ew_sensorCb x _) fun sens => ?_
  refine ew_bind (ew_jvalTreatmentsInfo _ _ _) fun sInfo => ?_
  refine ew_bind ?_ fun r2 => ew_pure _ _
  refine ew_ite ?_ (ew_pure _ _)
  refine ew_bind (ew_set _ (by decide)) fun _ => ?_
  refine ew_bind (ew_set _ (by decide)) fun _ => ?_
  refine ew_bind (ew_set _ (by decide)) fun _ => ?_
  exact ew_bind (ew_set _ (by decide)) fun _ => ew_pure _ _

theorem ew_foodSection (p : JVal) (K : List String) :
    EmitsWithin (foodSection p) K := by
  unfold foodSection
  refine ew_bind (ew_jget _ _ _) fun food => ?_
  refine ew_ite ?_ (ew_pure _ _)
  refine ew_bind (ew_jget _ _ _) fun len => ?_
  refine ew_ite ?_ (ew_pure _ _)
  exact ew_bind (ew_jsFilter _ fun x => ew_siteChangeCb x _) fun _ => ew_pure _ _

/-- The keys of the `_recalcAges` emissions for a base id. -/
theorem recalcAges_keys (store : String → Option Int) (now : Int) (baseId : String) :
    ∀ e ∈ recalcAges store now baseId,
      e.1 = baseId ++ ".age" ∨ e.1 = baseId ++ ".days" ∨ e.1 = baseId ++ ".hours" := by
  unfold recalcAges recalcAgesFacts
  cases store (baseId ++ ".changed") <;> simp

theorem ew_emitRecalcM (store : String → Option Int) (now : Int) (baseId : String)
    (K : List String) (h1 : baseId ++ ".age" ∈ K) (h2 : baseId ++ ".days" ∈ K)
    (h3 : baseId ++ ".hours" ∈ K) :
    EmitsWithin (emitRecalcM store now baseId) K := by
  intro s
  refine ⟨_, rfl, ?_⟩
  intro e he
  obtain ⟨x, hx, hxe⟩ := List.mem_map.mp he
  rcases recalcAges_keys store now baseId x hx with h | h | h <;>
    · rw [← hxe] at *
      simp only [h] at *
      simp_all

/-- The dataUpdate body only emits the documented keys. -/
theorem ew_dataUpdateBody (store : String → Option Int) (now : Int) (p : JVal) :
    EmitsWithin (dataUpdateBody store now p) (nonDeviceKeys ++ deviceKeys) := by
  unfold dataUpdateBody
  refine ew_bind (ew_set _ (by decide)) fun _ => ?_
  refine ew_ite ?_ (ew_pure _ _)
  refine ew_bind (ew_jget _ _ _) fun lastUpdated => ?_
  refine ew_bind (ew_ite (ew_set _ (by decide)) (ew_pure _ _)) fun _ => ?_
  refine ew_bind (ew_mono (by intro x hx; exact List.mem_append.mpr (Or.inr hx))
    (ew_deviceSection _ _)) fun _ => ?_
  refine ew_bind (ew_mono (by intro x hx; exact List.mem_append.mpr (Or.inl hx))
    (ew_sgvsSection _)) fun _ => ?_
  refine ew_bind (ew_mono (by intro x hx; exact List.mem_append.mpr (Or.inl hx))
    (ew_treatmentsSection _ _)) fun flags => ?_
  refine ew_bind (ew_foodSection _ _) fun _ => ?_
  refine ew_bind (ew_ite (ew_pure _ _) (ew_emitRecalcM _ _ _ _ (by decide) (by decide) (by decide))) fun _ => ?_
  exact ew_ite (ew_pure _ _) (ew_emitRecalcM _ _ _ _ (by decide) (by decide) (by decide))

theorem run_jsCatch (m : JSM Unit) (s : List Emission) :
    (jsCatch m).run s = .ok () (resState (m.run s)) := by
  cases h : m.run s with
  | ok a s' =>
      cases a
      have h' : m s = EStateM.Result.ok PUnit.unit s' := h
      simp [jsCatch, EStateM.run, h', resState]
  | error e s' =>
      have h' : m s = EStateM.Result.error e s' := h
      simp [jsCatch, EStateM.run, h', resState]

/-- The dataUpdate handler never lets an error escape, only appends
emissions (with keys among the documented ones), and keeps the emissions
made before any internal throw. -/
theorem dataUpdateHandler_ok (store : String → Option Int) (now : Int) (p : JVal)
    (s : List Emission) :
    ∃ l, (dataUpdateHandler store now p).run s = .ok () (s ++ l) ∧
      ∀ e ∈ l, e.1 ∈ nonDeviceKeys ++ deviceKeys := by
  obtain ⟨l, h1, h2⟩ := ew_dataUpdateBody store now p s
  refine ⟨l, ?_, h2⟩
  unfold dataUpdateHandler
  rw [run_jsCatch, h1]

/-- If the payload's `devicestatus` field reads as null/undefined or as an
empty array, the device section runs without emitting and without
throwing. -/
theorem ew_deviceSection_skip (tsv p : JVal) (K : List String)
    (h : jget p "devicestatus" = (pure JVal.null : JSM JVal) ∨
         jget p "devicestatus" = (pure (JVal.arr []) : JSM JVal)) :
    EmitsWithin (deviceSection tsv p) K := by
  unfold deviceSection
  rcases h with h | h <;> rw [h, pure_bind]
  · simp only [JVal.truthy, Bool.false_eq_true, if_false]
    exact ew_pure _ _
  · simp only [JVal.truthy, if_true]
    have hlen : jget (JVal.arr []) "length" = (pure (JVal.num 0) : JSM JVal) := by
      simp [jget]
    rw [hlen, pure_bind]
    simp only [JVal.truthy]
    norm_num
    exact ew_pure _ _

/-- Under the same devicestatus hypothesis, or a falsy payload, the whole
body emits only non-device keys. -/
theorem ew_body_noDevice (store : String → Option Int) (now : Int) (p : JVal)
    (H : p.truthy = false ∨
         jget p "devicestatus" = (pure JVal.null : JSM JVal) ∨
         jget p "devicestatus" = (pure (JVal.arr []) : JSM JVal)) :
    EmitsWithin (dataUpdateBody store now p) nonDeviceKeys := by
  unfold dataUpdateBody
  refine ew_bind (ew_set _ (by decide)) fun _ => ?_
  rcases H with H | H
  · rw [H]
    simp only [Bool.false_eq_true, if_false]
    exact ew_pure _ _
  · refine ew_ite ?_ (ew_pure _ _)
    refine ew_bind (ew_jget _ _ _) fun lastUpdated => ?_
    refine ew_bind (ew_ite (ew_set _ (by decide)) (ew_pure _ _)) fun _ => ?_
    refine ew_bind (ew_deviceSection_skip _ _ _ H) fun _ => ?_
    refine ew_bind (ew_sgvsSection _) fun _ => ?_
    refine ew_bind (ew_treatmentsSection _ _) fun flags => ?_
    refine ew_bind (ew_foodSection _ _) fun _ => ?_
    refine ew_bind (ew_ite (ew_pure _ _) (ew_emitRecalcM _ _ _ _ (by decide) (by decide) (by decide))) fun _ => ?_
    exact ew_ite (ew_pure _ _) (ew_emitRecalcM _ _ _ _ (by decide) (by decide) (by decide))

/-! ## The claims -/
/-- Claim C1: among the candidates, the winner is an accepted one — its
timestamp occurs in the list, is strictly positive and not after now — its
age is the elapsed whole hours since its timestamp, is non-negative, and is
minimal among all candidates with a non-negative elapsed time; a future
candidate is never selected (the winner satisfies `millis ≤ now`).  On the
concrete input [T-50h, T-10h, T-5h] with now = T (all tagged Site Change),
the winner is T-5h with age 5, days 0, hours 5. -/
theorem claim_C1 :
    (∀ (now : Int) (l : List Treatment),
      (getLatestTreatmentsInfo now l).found = true →
        (∃ t ∈ l, t.mills = (getLatestTreatmentsInfo now l).millis) ∧
        0 < (getLatestTreatmentsInfo now l).millis ∧
        (getLatestTreatmentsInfo now l).millis ≤ now ∧
        (getLatestTreatmentsInfo now l).age =
          diffHours now (getLatestTreatmentsInfo now l).millis ∧
        0 ≤ (getLatestTreatmentsInfo now l).age ∧
        ∀ t ∈ l, 0 < t.mills → t.mills ≤ now →
          (getLatestTreatmentsInfo now l).age ≤ diffHours now t.mills) ∧
    cannulaInfo 1600000000000
      [{ eventType := some "Site Change", mills := 1599820000000 },
       { eventType := some "Site Change", mills := 1599964000000 },
       { eventType := some "Site Change", mills := 1599982000000 }] =
      { found := true, age := 5, days := 0, hours := 5, millis := 1599982000000 } := by
  constructor
  · intro now l hf
    unfold getLatestTreatmentsInfo at *
    have inv := latestState_inv now l
    have hmle := inv.millis_le_now hf
    refine ⟨inv.millis_mem hf, inv.millis_pos hf, hmle,
      (inv.millis_age hf).symm, ?_, ?_⟩
    · rw [← inv.millis_age hf]
      exact diffHours_nonneg hmle
    · intro t ht hpos hle
      have hpd : 0 < (latestState now l).1 := inv.found_iff.mp hf
      have h1 : t.mills ≤ (latestState now l).1 := inv.ub t ht hle
      have h2 : (latestState now l).1 ≤ now := inv.pd_le_now hpd
      rw [inv.age_eq hf]
      exact diffHours_anti h1 h2
  · decide

/-- Claim C1 witness: instantiation at now = 10 and a single candidate with
timestamp 5. -/
theorem claim_C1_witness :
    (∃ t ∈ [({ eventType := none, mills := 5 } : Treatment)],
        t.mills = (getLatestTreatmentsInfo 10
          [{ eventType := none, mills := 5 }]).millis) ∧
    0 < (getLatestTreatmentsInfo 10 [{ eventType := none, mills := 5 }]).millis ∧
    (getLatestTreatmentsInfo 10 [{ eventType := none, mills := 5 }]).millis ≤ 10 ∧
    (getLatestTreatmentsInfo 10 [{ eventType := none, mills := 5 }]).age =
      diffHours 10 (getLatestTreatmentsInfo 10
        [{ eventType := none, mills := 5 }]).millis ∧
    0 ≤ (getLatestTreatmentsInfo 10 [{ eventType := none, mills := 5 }]).age ∧
    ∀ t ∈ [({ eventType := none, mills := 5 } : Treatment)],
      0 < t.mills → t.mills ≤ 10 →
        (getLatestTreatmentsInfo 10 [{ eventType := none, mills := 5 }]).age ≤
          diffHours 10 t.mills :=
  claim_C1.1 10 [{ eventType := none, mills := 5 }] (by decide)

/-- Claim C6: `age = days*24 + hours` holds for every computed age info —
for the fresh path unconditionally, and for the recovery path's emitted
facts; moreover age is the whole elapsed hours and days the whole elapsed
days since the reference timestamp. -/
theorem claim_C6 :
    (∀ (now : Int) (l : List Treatment),
        (getLatestTreatmentsInfo now l).age =
          (getLatestTreatmentsInfo now l).days * 24 +
            (getLatestTreatmentsInfo now l).hours) ∧
    (∀ (now : Int) (l : List Treatment),
        (getLatestTreatmentsInfo now l).found = true →
          (getLatestTreatmentsInfo now l).age =
            diffHours now (getLatestTreatmentsInfo now l).millis ∧
          (getLatestTreatmentsInfo now l).days =
            diffDays now (getLatestTreatmentsInfo now l).millis) ∧
    (∀ (now c : Int) (baseId : String), ∃ a d h,
        recalcAgesFacts now (some c) baseId =
          [(baseId ++ ".age", ⟨now, true, a⟩),
           (baseId ++ ".days", ⟨now, true, d⟩),
           (baseId ++ ".hours", ⟨now, true, h⟩)] ∧
        a = d * 24 + h ∧ a = diffHours now c ∧ d = diffDays now c) := by
  refine ⟨?_, ?_, ?_⟩
  · intro now l
    unfold getLatestTreatmentsInfo
    have inv := latestState_inv now l
    cases hf : (latestState now l).2.found
    · rw [inv.not_found hf]
      simp [initialTreatmentInfo]
    · have := inv.hours_eq hf
      omega
  · intro now l hf
    unfold getLatestTreatmentsInfo at *
    have inv := latestState_inv now l
    exact ⟨(inv.millis_age hf).symm, (inv.millis_days hf).symm⟩
  · intro now c baseId
    exact ⟨_, _, _, rfl, by ring, rfl, rfl⟩

/-- Claim C6 witness: instantiation of the found-conditional part at
now = 10 with a single candidate with timestamp 5. -/
theorem claim_C6_witness :
    (getLatestTreatmentsInfo 10 [{ eventType := none, mills := 5 }]).age =
      diffHours 10 (getLatestTreatmentsInfo 10
        [{ eventType := none, mills := 5 }]).millis ∧
    (getLatestTreatmentsInfo 10 [{ eventType := none, mills := 5 }]).days =
      diffDays 10 (getLatestTreatmentsInfo 10
        [{ eventType := none, mills := 5 }]).millis :=
  claim_C6.2.1 10 [{ eventType := none, mills := 5 }] (by decide)

/-- Claim C9: the running-maximum loop of `_getLatestTreatmentsInfo` is
equivalent, on its found flag and its age/days/hours outputs, to the
reference function that takes the latest timestamp `m` with `0 < m ≤ now`;
in particular `found` holds exactly when such a timestamp exists. -/
theorem claim_C9 :
    ∀ (now : Int) (l : List Treatment),
      ((getLatestTreatmentsInfo now l).found = true ↔
        ∃ t ∈ l, 0 < t.mills ∧ t.mills ≤ now) ∧
      (getLatestTreatmentsInfo now l).found = (refLatestAge now l).found ∧
      (getLatestTreatmentsInfo now l).age = (refLatestAge now l).age ∧
      (getLatestTreatmentsInfo now l).days = (refLatestAge now l).days ∧
      (getLatestTreatmentsInfo now l).hours = (refLatestAge now l).hours := by
  intro now l
  have inv := latestState_inv now l
  have hmem : ∀ m : Int, m ∈ refCands now l ↔
      (∃ t ∈ l, t.mills = m) ∧ 0 < m ∧ m ≤ now := by
    intro m
    unfold refCands
    simp only [List.mem_filter, List.mem_map, decide_eq_true_eq]
  have hiff : (getLatestTreatmentsInfo now l).found = true ↔
      ∃ t ∈ l, 0 < t.mills ∧ t.mills ≤ now := by
    unfold getLatestTreatmentsInfo
    constructor
    · intro hf
      obtain ⟨t, ht, hm⟩ := inv.millis_mem hf
      exact ⟨t, ht, by rw [hm]; exact ⟨inv.millis_pos hf, inv.millis_le_now hf⟩⟩
    · rintro ⟨t, ht, h1, h2⟩
      have := inv.ub t ht h2
      exact inv.found_iff.mpr (by omega)
  refine ⟨hiff, ?_⟩
  unfold refLatestAge
  cases hE : (refCands now l).isEmpty
  · -- some candidate exists: the final prevDate is the maximum candidate
    have hne : refCands now l ≠ [] := by
      intro hnil
      rw [hnil] at hE
      simp at hE
    obtain ⟨x, hx⟩ := List.exists_mem_of_ne_nil _ hne
    obtain ⟨⟨tx, htx, htxm⟩, hx1, hx2⟩ := (hmem x).mp hx
    have hf : (getLatestTreatmentsInfo now l).found = true :=
      hiff.mpr ⟨tx, htx, by rw [htxm]; exact ⟨hx1, hx2⟩⟩
    have hpd : 0 < (latestState now l).1 := by
      unfold getLatestTreatmentsInfo at hf
      exact inv.found_iff.mp hf
    have hpdle : (latestState now l).1 ≤ now := inv.pd_le_now hpd
    -- prevDate is a candidate
    have hpdmem : (latestState now l).1 ∈ refCands now l :=
      (hmem _).mpr ⟨inv.pd_mem hpd, hpd, hpdle⟩
    have hle1 : (latestState now l).1 ≤ (refCands now l).foldl max 0 :=
      foldl_max_mem_le _ 0 _ hpdmem
    have hle2 : (refCands now l).foldl max 0 ≤ (latestState now l).1 := by
      rcases foldl_max_eq_or_mem (refCands now l) 0 with h | h
      · omega
      · obtain ⟨⟨t, ht, htm⟩, h1, h2⟩ := (hmem _).mp h
        rw [← htm]
        exact inv.ub t ht (by omega)
    have hpdM : (latestState now l).1 = (refCands now l).foldl max 0 :=
      le_antisymm hle1 hle2
    simp only [Bool.false_eq_true, if_false]
    unfold getLatestTreatmentsInfo at *
    refine ⟨by rw [hf], ?_, ?_, ?_⟩
    · rw [inv.age_eq hf, hpdM]
    · rw [inv.days_eq hf, hpdM]
    · rw [inv.hours_eq hf, inv.age_eq hf, inv.days_eq hf, hpdM]
  · -- no candidate: both sides are the initial info
    have hnil : refCands now l = [] := by
      simpa using hE
    have hnf : (getLatestTreatmentsInfo now l).found = false := by
      cases hf : (getLatestTreatmentsInfo now l).found
      · rfl
      · obtain ⟨t, ht, h1, h2⟩ := hiff.mp hf
        have : t.mills ∈ refCands now l :=
          (hmem _).mpr ⟨⟨t, ht, rfl⟩, h1, h2⟩
        rw [hnil] at this
        exact absurd this (List.not_mem_nil _)
    have hinit : getLatestTreatmentsInfo now l = initialTreatmentInfo := by
      unfold getLatestTreatmentsInfo at *
      exact inv.not_found hnf
    rw [hinit]
    simp [initialTreatmentInfo]

/-- Helper: the recovery path with a stored value emits exactly the three
age facts, none of which is the `.changed` key. -/
theorem recalcAges_some (store : String → Option Int) (now : Int)
    (baseId : String) (c : Int) (h : store (baseId ++ ".changed") = some c) :
    recalcAges store now baseId =
      [(baseId ++ ".age", ⟨now, true, diffHours now c⟩),
       (baseId ++ ".days", ⟨now, true, diffDays now c⟩),
       (baseId ++ ".hours", ⟨now, true, diffHours now c - diffDays now c * 24⟩)] ∧
    ∀ e ∈ recalcAges store now baseId, e.1 ≠ baseId ++ ".changed" := by
  unfold recalcAges recalcAgesFacts
  rw [h]
  refine ⟨rfl, ?_⟩
  intro e he hkey
  simp only [List.mem_cons, List.not_mem_nil, or_false] at he
  have neq : ∀ s1 s2 : String, s1.length ≠ s2.length →
      baseId ++ s1 ≠ baseId ++ s2 := by
    intro s1 s2 hne heq
    have hh := congrArg String.length heq
    rw [String.length_append, String.length_append] at hh
    omega
  rcases he with he | he | he
  · rw [he] at hkey
    exact neq ".age" ".changed" (by decide) hkey
  · rw [he] at hkey
    exact neq ".days" ".changed" (by decide) hkey
  · rw [he] at hkey
    exact neq ".hours" ".changed" (by decide) hkey

/-- Claim C2: the recovery path reads the persisted `.changed` value for the
category; with no stored value it emits nothing; with a stored value it
emits exactly the age/days/hours facts recomputed against now (ts = now),
and never touches the `.changed` key; concretely, a stored
`data.cage.changed` of T-30h with now = T yields age 30, days 1, hours 6. -/
theorem claim_C2 :
    (∀ (store : String → Option Int) (now : Int) (baseId : String),
        store (baseId ++ ".changed") = none → recalcAges store now baseId = []) ∧
    (∀ (store : String → Option Int) (now : Int) (baseId : String) (c : Int),
        store (baseId ++ ".changed") = some c →
          recalcAges store now baseId =
            [(baseId ++ ".age", ⟨now, true, diffHours now c⟩),
             (baseId ++ ".days", ⟨now, true, diffDays now c⟩),
             (baseId ++ ".hours", ⟨now, true,
               diffHours now c - diffDays now c * 24⟩)] ∧
          ∀ e ∈ recalcAges store now baseId, e.1 ≠ baseId ++ ".changed") ∧
    (∀ T : Int,
        recalcAges
            (fun k => if k = "data.cage.changed" then some (T - 108000000) else none)
            T "data.cage" =
          [("data.cage.age", ⟨T, true, 30⟩),
           ("data.cage.days", ⟨T, true, 1⟩),
           ("data.cage.hours", ⟨T, true, 6⟩)]) := by
  refine ⟨?_, ?_, ?_⟩
  · intro store now baseId h
    unfold recalcAges recalcAgesFacts
    rw [h]
  · intro store now baseId c h
    exact recalcAges_some store now baseId c h
  · intro T
    have hkey : ("data.cage" ++ ".changed" : String) = "data.cage.changed" := by
      decide
    have hst : (fun k =>
        if k = "data.cage.changed" then some (T - 108000000) else none)
          ("data.cage" ++ ".changed") = some (T - 108000000) := by
      simp [hkey]
    obtain ⟨heq, _⟩ := recalcAges_some
      (fun k => if k = "data.cage.changed" then some (T - 108000000) else none)
      T "data.cage" (T - 108000000) hst
    rw [heq]
    have hd : T - (T - 108000000) = 108000000 := by ring
    have h2 : diffHours T (T - 108000000) = 30 := by
      unfold diffHours jsTruncDiv
      rw [hd]
      decide
    have h3 : diffDays T (T - 108000000) = 1 := by
      unfold diffDays jsTruncDiv
      rw [hd]
      decide
    rw [h2, h3]
    have ha : ("data.cage" ++ ".age" : String) = "data.cage.age" := by decide
    have hb : ("data.cage" ++ ".days" : String) = "data.cage.days" := by decide
    have hc : ("data.cage" ++ ".hours" : String) = "data.cage.hours" := by decide
    rw [ha, hb, hc]
    norm_num

/-- Claim C3: a truthy notification timestamp equal to the dedup cursor is
discarded with no emission; otherwise the cursor is updated to it and a
`data.notification` fact is emitted whose ts is the timestamp when
parseable (else now) and whose value is title–space–message; hence of two
consecutive notifications with equal truthy timestamps at most the first
is emitted, and a changed timestamp always re-emits. -/
theorem claim_C3 :
    (∀ (now : Int) (prev : Option Int) (p : NotifPayload) (t : Int),
        truthyTimestamp p = some t → prev = some t →
          notificationStep now prev p = (prev, none)) ∧
    (∀ (now : Int) (prev : Option Int) (p : NotifPayload) (t : Int),
        truthyTimestamp p = some t → prev ≠ some t →
          (notificationStep now prev p).1 = some t ∧
          (notificationStep now prev p).2 =
            some { ts := if t.natAbs ≤ 8640000000000000 then t else now,
                   ack := true, val := p.title ++ " " ++ p.message }) ∧
    (∀ (now1 now2 : Int) (prev : Option Int) (p1 p2 : NotifPayload) (t : Int),
        truthyTimestamp p1 = some t → truthyTimestamp p2 = some t →
          (notificationStep now2 (notificationStep now1 prev p1).1 p2).2 = none) ∧
    (∀ (now1 now2 : Int) (prev : Option Int) (p1 p2 : NotifPayload) (t t' : Int),
        truthyTimestamp p1 = some t → truthyTimestamp p2 = some t' → t' ≠ t →
          ((notificationStep now2 (notificationStep now1 prev p1).1 p2).2).isSome
            = true) := by
  have tNonzero : ∀ (p : NotifPayload) (t : Int),
      truthyTimestamp p = some t → t ≠ 0 := by
    intro p t h
    unfold truthyTimestamp at h
    cases hp : p.timestamp with
    | none => rw [hp] at h; simp at h
    | some x =>
        rw [hp] at h
        by_cases hx : x = 0
        · simp [hx] at h
        · simp [hx] at h
          rw [← h]
          exact hx
  have cursor : ∀ (now : Int) (prev : Option Int) (p : NotifPayload) (t : Int),
      truthyTimestamp p = some t → (notificationStep now prev p).1 = some t := by
    intro now prev p t h
    rw [notificationStep_truthy now prev p t h]
    by_cases hp : prev = some t
    · rw [if_pos hp, hp]
    · rw [if_neg hp]
  have discard : ∀ (now : Int) (prev : Option Int) (p : NotifPayload) (t : Int),
      truthyTimestamp p = some t → prev = some t →
        notificationStep now prev p = (prev, none) := by
    intro now prev p t h hp
    rw [notificationStep_truthy now prev p t h, if_pos hp]
  have emit : ∀ (now : Int) (prev : Option Int) (p : NotifPayload) (t : Int),
      truthyTimestamp p = some t → prev ≠ some t →
        (notificationStep now prev p).1 = some t ∧
        (notificationStep now prev p).2 =
          some { ts := if t.natAbs ≤ 8640000000000000 then t else now,
                 ack := true, val := p.title ++ " " ++ p.message } := by
    intro now prev p t h hp
    have ht0 := tNonzero p t h
    rw [notificationStep_truthy now prev p t h, if_neg hp]
    exact ⟨rfl, by rw [notifTs_eq now t ht0]⟩
  refine ⟨discard, emit, ?_, ?_⟩
  · intro now1 now2 prev p1 p2 t h1 h2
    have hc := cursor now1 prev p1 t h1
    rw [discard now2 _ p2 t h2 hc]
  · intro now1 now2 prev p1 p2 t t' h1 h2 hne
    have hc := cursor now1 prev p1 t h1
    have hne2 : (notificationStep now1 prev p1).1 ≠ some t' := by
      rw [hc]
      intro hcontra
      injection hcontra with hcontra
      exact hne hcontra.symm
    rw [(emit now2 _ p2 t' h2 hne2).2]
    rfl

/-- Claim C3 witness: equal timestamp 5 is discarded against cursor 5; a
fresh timestamp 5 against cursor 4 is emitted with its own ts and updates
the cursor; consecutive equal timestamps suppress the second; a changed
timestamp re-emits. -/
theorem claim_C3_witness :
    notificationStep 100 (some 5)
      { timestamp := some 5, title := "a", message := "b" } = (some 5, none) ∧
    ((notificationStep 100 (some 4)
        { timestamp := some 5, title := "a", message := "b" }).1 = some 5 ∧
      (notificationStep 100 (some 4)
        { timestamp := some 5, title := "a", message := "b" }).2 =
        some { ts := if (5 : Int).natAbs ≤ 8640000000000000 then 5 else 100,
               ack := true, val := "a" ++ " " ++ "b" }) ∧
    (notificationStep 200 (notificationStep 100 none
        { timestamp := some 5, title := "a", message := "b" }).1
      { timestamp := some 5, title := "c", message := "d" }).2 = none ∧
    ((notificationStep 200 (notificationStep 100 none
        { timestamp := some 5, title := "a", message := "b" }).1
      { timestamp := some 7, title := "c", message := "d" }).2).isSome = true :=
  ⟨claim_C3.1 100 (some 5) _ 5 rfl rfl,
   claim_C3.2.1 100 (some 4) _ 5 rfl (by decide),
   claim_C3.2.2.1 100 200 none _ _ 5 rfl rfl,
   claim_C3.2.2.2 100 200 none _ _ 5 7 rfl rfl (by decide)⟩

/-- Claim C10: a falsy notification timestamp (absent or zero) is always
emitted — deduplication never applies — with the cursor left unchanged and
the fact ts falling back to the current time; in particular a second
identical falsy payload is emitted again. -/
theorem claim_C10 :
    (∀ (now : Int) (prev : Option Int) (p : NotifPayload),
        truthyTimestamp p = none →
          notificationStep now prev p =
            (prev, some { ts := now, ack := true,
                          val := p.title ++ " " ++ p.message })) ∧
    (∀ (now1 now2 : Int) (prev : Option Int) (p : NotifPayload),
        truthyTimestamp p = none →
          (notificationStep now2 (notificationStep now1 prev p).1 p).2 =
            some { ts := now2, ack := true,
                   val := p.title ++ " " ++ p.message }) := by
  have base : ∀ (now : Int) (prev : Option Int) (p : NotifPayload),
      truthyTimestamp p = none →
        notificationStep now prev p =
          (prev, some { ts := now, ack := true,
                        val := p.title ++ " " ++ p.message }) := by
    intro now prev p h
    exact notificationStep_falsy now prev p h
  refine ⟨base, ?_⟩
  intro now1 now2 prev p h
  rw [base now1 prev p h]
  rw [base now2 prev p h]

/-- Claim C10 witness: a zero timestamp is emitted with ts = now and an
unchanged cursor, twice in a row. -/
theorem claim_C10_witness :
    notificationStep 7 (some 3)
        { timestamp := some 0, title := "a", message := "b" } =
      (some 3, some { ts := 7, ack := true, val := "a" ++ " " ++ "b" }) ∧
    (notificationStep 9 (notificationStep 7 (some 3)
        { timestamp := some 0, title := "a", message := "b" }).1
      { timestamp := some 0, title := "a", message := "b" }).2 =
      some { ts := 9, ack := true, val := "a" ++ " " ++ "b" } :=
  ⟨claim_C10.1 7 (some 3) _ rfl, claim_C10.2 7 9 (some 3) _ rfl⟩

/-- Claim C5: every transport connect resets the dedup cursor to absent
(and emits connection-true plus the authorize request), so any truthy
notification timestamp — including one accepted before a disconnect — is
accepted as new after reconnect. -/
theorem claim_C5 :
    ∀ (secretHash : Option String) (prev : Option Int),
      (connectHandler secretHash prev).1 = none ∧
      (connectHandler secretHash prev).2.1 = true ∧
      (connectHandler secretHash prev).2.2 =
        { client := "iobroker", secret := secretHash, history := 48 } ∧
      ∀ (now : Int) (p : NotifPayload) (t : Int),
        truthyTimestamp p = some t →
          ((notificationStep now (connectHandler secretHash prev).1 p).2).isSome
            = true := by
  intro secretHash prev
  refine ⟨rfl, rfl, rfl, ?_⟩
  intro now p t h
  rw [show (connectHandler secretHash prev).1 = none from rfl]
  rw [notificationStep_truthy now none p t h]
  rw [if_neg (by simp)]
  rfl

/-- Claim C5 witness: after a connect that follows accepting timestamp 9,
the same timestamp 9 is accepted again. -/
theorem claim_C5_witness :
    (connectHandler (some "h") (some 9)).1 = none ∧
    ((notificationStep 3 (connectHandler (some "h") (some 9)).1
      { timestamp := some 9, title := "t", message := "m" }).2).isSome = true :=
  ⟨(claim_C5 (some "h") (some 9)).1,
   (claim_C5 (some "h") (some 9)).2.2.2 3
     { timestamp := some 9, title := "t", message := "m" } 9 rfl⟩

/-- Claim C8: `close()` is idempotent — the first call on a live handle
closes it exactly once and clears it; any call on an already-cleared
handle (or before any connect, after clearing) raises no error, performs
no close action, and leaves the handle cleared. -/
theorem claim_C8 :
    ∀ (H : Type) (h : H),
      closeSession (some h) = Except.ok ((none : Option H), [h]) ∧
      closeSession (none : Option H) = Except.ok (none, ([] : List H)) := by
  intro H h
  exact ⟨rfl, rfl⟩

/-- Claim C4 counterexample: the clear_alarm handler has no per-event
catch — a null payload makes its `data.clear` access throw, and the error
(with no emission) propagates out of the handler. -/
theorem claim_C4_counterexample :
    (clearAlarmHandler JVal.null).run [] =
      EStateM.Result.error "TypeError: cannot read clear of null" [] := rfl

/-- Claim C4 (amended): a handler failure while processing a dataUpdate
payload is caught per-event — the handler always returns normally and the
emissions made before the failure (and before the event) are preserved,
only extended; concretely, a devicestatus entry of null throws inside the
body after `data.rawUpdate` was emitted, and the handler still returns
normally with that emission intact.  Handlers of the other event kinds
have no such catch. -/
theorem claim_C4 :
    (∀ (store : String → Option Int) (now : Int) (p : JVal) (s : List Emission),
        ∃ l, (dataUpdateHandler store now p).run s = .ok () (s ++ l)) ∧
    (dataUpdateHandler (fun _ => none) 0
        (.obj [("devicestatus", .arr [.null])])).run [] =
      .ok () [("data.rawUpdate", .raw (.obj [("devicestatus", .arr [.null])]))] := by
  constructor
  · intro store now p s
    obtain ⟨l, h1, _⟩ := dataUpdateHandler_ok store now p s
    exact ⟨l, h1⟩
  · rfl

/-- Claim C7: a dataUpdate payload whose device-status sequence is absent
(reads as null/undefined, or the payload itself is falsy) or is an empty
array emits none of the nine device facts and does not throw. -/
theorem claim_C7 :
    ∀ (store : String → Option Int) (now : Int) (p : JVal) (s : List Emission),
      (p.truthy = false ∨
       jget p "devicestatus" = (pure JVal.null : JSM JVal) ∨
       jget p "devicestatus" = (pure (JVal.arr []) : JSM JVal)) →
      ∃ l, (dataUpdateHandler store now p).run s = .ok () (s ++ l) ∧
        ∀ e ∈ l, e.1 ∉ deviceKeys := by
  intro store now p s H
  obtain ⟨l, h1, h2⟩ := ew_body_noDevice store now p H s
  refine ⟨l, ?_, ?_⟩
  · unfold dataUpdateHandler
    rw [run_jsCatch, h1]
  · intro e he
    have hnd : ∀ x ∈ nonDeviceKeys, x ∉ deviceKeys := by decide
    exact hnd e.1 (h2 e he)

/-- Claim C7 witness: instantiation at an empty-object payload (its
devicestatus field reads as undefined). -/
theorem claim_C7_witness :
    ∃ l, (dataUpdateHandler (fun _ => none) 0 (JVal.obj [])).run [] =
        .ok () ([] ++ l) ∧
      ∀ e ∈ l, e.1 ∉ deviceKeys :=
  claim_C7 (fun _ => none) 0 (JVal.obj []) [] (Or.inr (Or.inl rfl))

/-- Claim C2 witness: with no stored value nothing is emitted; with stored
value 2 and now = 5 the three age facts are emitted and the `.changed` key
is untouched. -/
theorem claim_C2_witness :
    recalcAges (fun _ => none) 5 "data.cage" = [] ∧
    (recalcAges (fun _ => some 2) 5 "data.cage" =
      [("data.cage" ++ ".age", ⟨5, true, diffHours 5 2⟩),
       ("data.cage" ++ ".days", ⟨5, true, diffDays 5 2⟩),
       ("data.cage" ++ ".hours", ⟨5, true, diffHours 5 2 - diffDays 5 2 * 24⟩)] ∧
      ∀ e ∈ recalcAges (fun _ => some 2) 5 "data.cage",
        e.1 ≠ "data.cage" ++ ".changed") :=
  ⟨claim_C2.1 (fun _ => none) 5 "data.cage" rfl,
   claim_C2.2.1 (fun _ => some 2) 5 "data.cage" 2 rfl⟩

end Nightscout
